import Mathlib

/-
Shallow embedding of the N64 cartridge-identity / save-memory engine
(src/support/n64/n64.cpp) and proofs about its specified properties.

Conventions of the embedding:
 - machine integers are Nat with explicit `% 2^64` where the C code wraps
   (the FNV hash and the boot-code checksum accumulators);
 - C strings are `List Char` (the end of the list is the NUL terminator);
 - byte buffers are `List Nat`; 32-bit words read out of a buffer are Nat;
 - the host configuration-option store (user_io_status_get/set) is an
   explicit `Host` structure threaded through the detection functions;
 - the file-static `old_ar` slot is carried next to the config in
   `EngineState`;
 - fallible lookups return `Option`.
-/

namespace N64


/-- Embeds `enum class MemoryType` of n64.cpp. -/
inductive MemoryType where
  | NONE
  | EEPROM_512
  | EEPROM_2k
  | SRAM_32k
  | SRAM_96k
  | FLASH_128k
  | CPAK
  | TPAK
  | UNKNOWN
deriving DecidableEq

/-- Embeds `enum class CIC` of n64.cpp. -/
inductive CIC where
  | CIC_NUS_6101
  | CIC_NUS_6102
  | CIC_NUS_7101
  | CIC_NUS_7102
  | CIC_NUS_6103
  | CIC_NUS_7103
  | CIC_NUS_6105
  | CIC_NUS_7105
  | CIC_NUS_6106
  | CIC_NUS_7106
  | CIC_NUS_8303
  | CIC_NUS_8401
  | CIC_NUS_5167
  | CIC_NUS_DDUS
  | CIC_NUS_5101
  | UNKNOWN
deriving DecidableEq

/-- Embeds `enum class SystemType` of n64.cpp. -/
inductive SystemType where
  | NTSC
  | PAL
  | UNKNOWN
deriving DecidableEq

/-- Embeds `enum class DataFormat` of n64.cpp. -/
inductive DataFormat where
  | BIG_ENDIAN
  | BYTE_SWAPPED
  | LITTLE_ENDIAN
  | UNKNOWN
deriving DecidableEq

/-- Embeds `enum class PadType` of n64.cpp. -/
inductive PadType where
  | N64_PAD
  | UNPLUGGED
  | N64_PAD_WITH_CPAK
  | N64_PAD_WITH_RPAK
  | SNAC
  | N64_PAD_WITH_TPAK
  | UNKNOWN
deriving DecidableEq

/-- Embeds `enum class AspectRatio` of n64.cpp (named ArType here, after
the `AR_TYPE_OPT` config key it is stored under). -/
inductive ArType where
  | ORIGINAL
  | FULL
  | CUSTOM_1
  | CUSTOM_2
  | UNKNOWN
deriving DecidableEq, Fintype

/-- Embeds `get_save_size` of n64.cpp (fixed byte size per memory kind). -/
def get_save_size : MemoryType → Nat
  | .EEPROM_512 => 0x200
  | .EEPROM_2k => 0x800
  | .SRAM_32k => 0x8000
  | .SRAM_96k => 0x18000
  | .FLASH_128k => 0x20000
  | .CPAK => 0x8000
  | .TPAK => 0x8000
  | _ => 0

/-- Embeds the `DataFormat::BYTE_SWAPPED` loop body of `normalizeData`:
swap every adjacent byte pair; a trailing odd byte is left untouched. -/
def swap2 : List Nat → List Nat
  | [] => []
  | [a] => [a]
  | a :: b :: rest => b :: a :: swap2 rest

/-- Embeds the `DataFormat::LITTLE_ENDIAN` loop body of `normalizeData`:
reverse every 4-byte word; a trailing incomplete word is left untouched. -/
def swap4 : List Nat → List Nat
  | a :: b :: c :: d :: rest => d :: c :: b :: a :: swap4 rest
  | l => l

/-- Embeds `normalizeData(data, size, format)` of n64.cpp.  The C code
rewrites the first `size & ~1U` (resp. `size & ~3U`) bytes of the buffer
in place; bytes past that point are untouched. -/
def normalizeData (data : List Nat) (size : Nat) (format : DataFormat) : List Nat :=
  match format with
  | .BYTE_SWAPPED =>
      let n := 2 * (size / 2)
      swap2 (data.take n) ++ data.drop n
  | .LITTLE_ENDIAN =>
      let n := 4 * (size / 4)
      swap4 (data.take n) ++ data.drop n
  | _ => data

/-- Embeds `detectRomFormat` of n64.cpp.  `val` is the first 4-byte word
of the ROM as read on a little-endian host. -/
def detectRomFormat (val : Nat) : DataFormat :=
  if val = 0x40123780 ∨ val = 0x40072780 ∨ val = 0x41123780 then .BIG_ENDIAN
  else if val = 0x12408037 ∨ val = 0x07408027 ∨ val = 0x12418037 then .BYTE_SWAPPED
  else if val = 0x80371240 ∨ val = 0x80270740 ∨ val = 0x80371241 then .LITTLE_ENDIAN
  else if val % 256 = 0x80 then .BIG_ENDIAN
  else if val % 256 = 0x37 ∨ val % 256 = 0x27 then .BYTE_SWAPPED
  else if val % 256 = 0x40 ∨ val % 256 = 0x41 then .LITTLE_ENDIAN
  else .UNKNOWN

/-- Embeds the FNV-1a step of `fnv_hash` in n64.cpp: xor in the
lower-cased byte, multiply by the FNV prime, wrap at 64 bits. -/
def fnv_step (h : Nat) (a : Nat) : Nat :=
  ((h ^^^ (if 'A'.toNat ≤ a ∧ a ≤ 'Z'.toNat then a + 32 else a)) * 0x100000001b3) % 2 ^ 64

/-- Embeds `fnv_hash` of n64.cpp over the bytes of a C string. -/
def fnv_hash (s : List Char) : Nat :=
  s.foldl (fun h c => fnv_step h c.toNat) 0xcbf29ce484222325

/-- Embeds `hex_to_dec` of n64.cpp. -/
def hex_to_dec (x : Char) : Nat :=
  if '0' ≤ x ∧ x ≤ '9' then x.toNat - '0'.toNat
  else if 'A' ≤ x ∧ x ≤ 'F' then x.toNat - 'A'.toNat + 10
  else if 'a' ≤ x ∧ x ≤ 'f' then x.toNat - 'a'.toNat + 10
  else 0

/-- Embeds C `tolower` as used by `md5_matches` (ASCII). -/
def tolowerc (c : Char) : Char :=
  if 'A' ≤ c ∧ c ≤ 'Z' then Char.ofNat (c.toNat + 32) else c

/-- Embeds C `isspace` as used by `cart_id_is_match` (ASCII locale). -/
def isspace (c : Char) : Bool :=
  c == ' ' || c == '\t' || c == '\n' || c == Char.ofNat 11 || c == Char.ofNat 12 || c == '\r'

/-- The host configuration-option store consumed and produced through
`user_io_status_get` / `user_io_status_set`, one field per stable key
used by n64.cpp (`AUTODETECT_OPT`, `SYS_TYPE_OPT`, `CIC_TYPE_OPT`,
`NO_EPAK_OPT`, `CPAK_OPT`, `RPAK_OPT`, `TPAK_OPT`, `RTC_OPT`,
`SAVE_TYPE_OPT`, `CONTROLLER_OPTS[0..3]`, `AR_TYPE_OPT`).
`autodetect = true` means `AutoDetect::ON`. -/
structure Host where
  autodetect : Bool
  sysType : SystemType
  cicType : CIC
  noEpak : Bool
  cpakOpt : Bool
  rpakOpt : Bool
  tpakOpt : Bool
  rtcOpt : Bool
  saveTypeOpt : MemoryType
  pad0 : PadType
  pad1 : PadType
  pad2 : PadType
  pad3 : PadType
  ar : ArType
deriving DecidableEq

/-- The engine state: the host config plus the file-static `old_ar`
single-slot aspect-ratio memory of n64.cpp. -/
structure EngineState where
  host : Host
  old_ar : ArType
deriving DecidableEq

/-- Embeds `is_auto` of n64.cpp. -/
def is_auto (h : Host) : Bool := h.autodetect

/-- Embeds `set_cart_save_type` of n64.cpp: the value actually written
to `SAVE_TYPE_OPT` (anything with size 0 collapses to NONE). -/
def set_cart_save_type_val (v : MemoryType) : MemoryType :=
  if get_save_size v ≠ 0 then v else .NONE

/-- The slice of host configuration that `get_save_file_offset` reads:
`get_cart_save_type()` (already collapsed to a real save kind or NONE),
`CPAK_OPT` and `TPAK_OPT`. -/
structure SaveConfig where
  saveType : MemoryType
  cpak : Bool
  tpak : Bool
deriving DecidableEq

/-- The save kinds `get_cart_save_type()` can return. -/
def isCartSaveType (t : MemoryType) : Prop :=
  t = .NONE ∨ t = .EEPROM_512 ∨ t = .EEPROM_2k ∨ t = .SRAM_32k ∨ t = .SRAM_96k ∨ t = .FLASH_128k

instance (t : MemoryType) : Decidable (isCartSaveType t) := by
  unfold isCartSaveType; infer_instance

/-- Embeds `get_save_file_offset(idx)` of n64.cpp: the byte offset of
mounted region slot `idx` in the combined logical space. -/
def get_save_file_offset (cfg : SaveConfig) (idx : Nat) : Nat :=
  let o1 : Nat := if idx ≠ 0 ∧ cfg.saveType ≠ MemoryType.NONE then get_save_size cfg.saveType else 0
  let i1 : Nat := if idx ≠ 0 ∧ cfg.saveType ≠ MemoryType.NONE then idx - 1 else idx
  let o2 : Nat := if i1 ≠ 0 ∧ cfg.tpak = true then o1 + get_save_size MemoryType.TPAK else o1
  let i2 : Nat := if i1 ≠ 0 ∧ cfg.tpak = true then i1 - 1 else i1
  o2 + get_save_size MemoryType.CPAK * i2

/-- The region kinds mounted by `n64_rom_tx` after settings are resolved,
in mount (slot) order: the save region if the save type is not NONE, then
one transfer-pak or controller-pak region (transfer-pak prioritized), then
three more controller-pak regions when the controller-pak flag is set. -/
def mounted_regions (cfg : SaveConfig) : List MemoryType :=
  (if cfg.saveType ≠ MemoryType.NONE then [cfg.saveType] else [])
    ++ (if cfg.tpak || cfg.cpak then [if cfg.tpak then MemoryType.TPAK else MemoryType.CPAK] else [])
    ++ (if cfg.cpak then [MemoryType.CPAK, MemoryType.CPAK, MemoryType.CPAK] else [])

/-- The partition property claimed for the mounted address space: slot
offsets computed by `get_save_file_offset` start at 0, are the cumulative
sums of the region sizes in slot order (gap-free), each region ends where
the next begins, and the last region ends at the total size. -/
def save_space_partition (cfg : SaveConfig) : Prop :=
  get_save_file_offset cfg 0 = 0
  ∧ (List.range ((mounted_regions cfg).length + 1)).map (get_save_file_offset cfg)
      = (List.range ((mounted_regions cfg).length + 1)).map
          (fun k => (((mounted_regions cfg).map get_save_size).take k).sum)
  ∧ get_save_file_offset cfg (mounted_regions cfg).length
      = ((mounted_regions cfg).map get_save_size).sum
  ∧ ∀ k ∈ List.range (mounted_regions cfg).length,
      get_save_file_offset cfg k + get_save_size ((mounted_regions cfg).getD k .NONE)
        = get_save_file_offset cfg (k + 1)

instance (cfg : SaveConfig) : Decidable (save_space_partition cfg) := by
  unfold save_space_partition; infer_instance

/-- Embeds lines 517-527 of n64.cpp (the wide-display 1-slot stack inside
`parse_and_apply_db_tags`): given the `wide` tag flag, the current
`AR_TYPE_OPT` value and the `old_ar` slot, returns the new pair
(aspect-ratio option, old_ar slot). -/
def apply_wide (wide : Bool) (current_ar old_ar : ArType) : ArType × ArType :=
  if wide then
    (ArType.FULL, if current_ar ≠ ArType.FULL then current_ar else old_ar)
  else if current_ar = ArType.FULL ∧ old_ar ≠ ArType.UNKNOWN then
    (old_ar, ArType.UNKNOWN)
  else
    (current_ar, old_ar)

/-- A sequence of wide-on / wide-off applications starting from a state
(aspect ratio, old_ar slot). -/
def run_wide (ops : List Bool) (s : ArType × ArType) : ArType × ArType :=
  ops.foldl (fun s w => apply_wide w s.1 s.2) s

/-- The local accumulator variables of `parse_and_apply_db_tags`. -/
structure TagAcc where
  save_type : MemoryType := .NONE
  system_type : SystemType := .UNKNOWN
  cic_type : CIC := .UNKNOWN
  no_epak : Bool := false
  cpak : Bool := false
  rpak : Bool := false
  tpak : Bool := false
  rtc : Bool := false
  wide : Bool := false
  prefered_pad : PadType := .N64_PAD
deriving DecidableEq

/-- Embeds one iteration of the tag-dispatch switch of
`parse_and_apply_db_tags`: dispatch on the FNV hash of the token (the
`goto ntsc` / `goto pal` of the cic tags also set the system type;
cic8303/8401/5167/ddus/5101 set only the cic). Unknown tags are skipped. -/
def apply_tag (r : TagAcc) (tag : List Char) : TagAcc :=
  let h := fnv_hash tag
  if h = fnv_hash ['e', 'e', 'p', 'r', 'o', 'm', '5', '1', '2'] then { r with save_type := .EEPROM_512 }
  else if h = fnv_hash ['e', 'e', 'p', 'r', 'o', 'm', '2', 'k'] then { r with save_type := .EEPROM_2k }
  else if h = fnv_hash ['s', 'r', 'a', 'm', '3', '2', 'k'] then { r with save_type := .SRAM_32k }
  else if h = fnv_hash ['s', 'r', 'a', 'm', '9', '6', 'k'] then { r with save_type := .SRAM_96k }
  else if h = fnv_hash ['f', 'l', 'a', 's', 'h', '1', '2', '8', 'k'] then { r with save_type := .FLASH_128k }
  else if h = fnv_hash ['n', 'o', 'e', 'p', 'a', 'k'] then { r with no_epak := true }
  else if h = fnv_hash ['c', 'p', 'a', 'k'] then
    { r with cpak := true, prefered_pad := if r.prefered_pad = .N64_PAD then .N64_PAD_WITH_CPAK else r.prefered_pad }
  else if h = fnv_hash ['r', 'p', 'a', 'k'] then
    { r with rpak := true, prefered_pad := if r.prefered_pad = .N64_PAD then .N64_PAD_WITH_RPAK else r.prefered_pad }
  else if h = fnv_hash ['t', 'p', 'a', 'k'] then
    { r with tpak := true, prefered_pad := if r.prefered_pad = .N64_PAD then .N64_PAD_WITH_TPAK else r.prefered_pad }
  else if h = fnv_hash ['r', 't', 'c'] then { r with rtc := true }
  else if h = fnv_hash ['n', 't', 's', 'c'] then { r with system_type := .NTSC }
  else if h = fnv_hash ['p', 'a', 'l'] then { r with system_type := .PAL }
  else if h = fnv_hash ['w', 'i', 'd', 'e'] then { r with wide := true }
  else if h = fnv_hash ['c', 'i', 'c', '6', '1', '0', '1'] then { r with cic_type := .CIC_NUS_6101, system_type := .NTSC }
  else if h = fnv_hash ['c', 'i', 'c', '6', '1', '0', '2'] then { r with cic_type := .CIC_NUS_6102, system_type := .NTSC }
  else if h = fnv_hash ['c', 'i', 'c', '6', '1', '0', '3'] then { r with cic_type := .CIC_NUS_6103, system_type := .NTSC }
  else if h = fnv_hash ['c', 'i', 'c', '6', '1', '0', '5'] then { r with cic_type := .CIC_NUS_6105, system_type := .NTSC }
  else if h = fnv_hash ['c', 'i', 'c', '6', '1', '0', '6'] then { r with cic_type := .CIC_NUS_6106, system_type := .NTSC }
  else if h = fnv_hash ['c', 'i', 'c', '7', '1', '0', '1'] then { r with cic_type := .CIC_NUS_7101, system_type := .PAL }
  else if h = fnv_hash ['c', 'i', 'c', '7', '1', '0', '2'] then { r with cic_type := .CIC_NUS_7102, system_type := .PAL }
  else if h = fnv_hash ['c', 'i', 'c', '7', '1', '0', '3'] then { r with cic_type := .CIC_NUS_7103, system_type := .PAL }
  else if h = fnv_hash ['c', 'i', 'c', '7', '1', '0', '5'] then { r with cic_type := .CIC_NUS_7105, system_type := .PAL }
  else if h = fnv_hash ['c', 'i', 'c', '7', '1', '0', '6'] then { r with cic_type := .CIC_NUS_7106, system_type := .PAL }
  else if h = fnv_hash ['c', 'i', 'c', '8', '3', '0', '3'] then { r with cic_type := .CIC_NUS_8303 }
  else if h = fnv_hash ['c', 'i', 'c', '8', '4', '0', '1'] then { r with cic_type := .CIC_NUS_8401 }
  else if h = fnv_hash ['c', 'i', 'c', '5', '1', '6', '7'] then { r with cic_type := .CIC_NUS_5167 }
  else if h = fnv_hash ['c', 'i', 'c', 'd', 'd', 'u', 's'] then { r with cic_type := .CIC_NUS_DDUS }
  else if h = fnv_hash ['c', 'i', 'c', '5', '1', '0', '1'] then { r with cic_type := .CIC_NUS_5101 }
  else r

/-- Embeds the tag-parsing loop of `parse_and_apply_db_tags` plus the
post-loop default (a cic tag with no region tag defaults the region to
NTSC). -/
def parse_db_tags (tags : List (List Char)) : TagAcc :=
  let r := tags.foldl apply_tag {}
  if r.system_type = SystemType.UNKNOWN ∧ r.cic_type ≠ CIC.UNKNOWN then
    { r with system_type := .NTSC }
  else r

/-- Embeds `parse_and_apply_db_tags` of n64.cpp. `tags` is the token list
produced by `strtok(tags, "| ")`.  Returns the new engine state and the
bool result of the function (true when region and cic were both resolved, or
when auto-detection is off). -/
def parse_and_apply_db_tags (st : EngineState) (tags : List (List Char)) : EngineState × Bool :=
  let r := parse_db_tags tags
  if is_auto st.host then
    let h0 := st.host
    let h1 := if r.system_type ≠ SystemType.UNKNOWN then { h0 with sysType := r.system_type } else h0
    let h2 := if r.cic_type ≠ CIC.UNKNOWN then { h1 with cicType := r.cic_type } else h1
    let h3 := { h2 with
      noEpak := r.no_epak, cpakOpt := r.cpak, rpakOpt := r.rpak,
      tpakOpt := r.tpak, rtcOpt := r.rtc,
      saveTypeOpt := set_cart_save_type_val r.save_type }
    let h4 := if h3.pad0 ≠ PadType.SNAC then { h3 with pad0 := r.prefered_pad } else h3
    let aw := apply_wide r.wide h4.ar st.old_ar
    ({ host := { h4 with ar := aw.1 }, old_ar := aw.2 },
     decide (r.system_type ≠ SystemType.UNKNOWN) && decide (r.cic_type ≠ CIC.UNKNOWN))
  else
    (st, true)

/-- Embeds `md5_matches(line, md5)` of n64.cpp: the first argument is the
fuel (`MD5_LENGTH * 2 = 32` at the call site); a line shorter than that
(NUL hit) is no match; otherwise the lowercased line byte must equal the
hash byte. -/
def md5_matches : Nat → List Char → List Char → Bool
  | 0, _, _ => true
  | _ + 1, [], _ => false
  | _ + 1, _ :: _, [] => false
  | n + 1, c :: lt, m :: mt => if m = tolowerc c then md5_matches n lt mt else false

/-- Embeds the position loop of `cart_id_is_match`: `i` is the current
position, the list is the rest of the pattern (NUL = end of list).  The
C loop exits with CARTID_LENGTH (6) when `i` reaches 6 or the pattern
ends; whitespace at a nonzero position is an early termination returning
`i`; a character that is neither '_' nor the cart-id character returns 0. -/
def cart_id_go (cart_id : Nat → Char) : List Char → Nat → Nat
  | [], _ => 6
  | c :: cs, i =>
    if 6 ≤ i then 6
    else if i ≠ 0 ∧ isspace c = true then i
    else if c ≠ '_' ∧ c ≠ cart_id i then 0
    else cart_id_go cart_id cs (i + 1)

/-- Embeds `cart_id_is_match(line, cart_id)` of n64.cpp: the line must
start with the 3-character "ID:" marker, then the pattern is compared
position by position against the cart code. -/
def cart_id_is_match (line : List Char) (cart_id : Nat → Char) : Nat :=
  if line.take 3 = ['I', 'D', ':'] then cart_id_go cart_id (line.drop 3) 0 else 0

/-- Embeds the `sscanf(s, "%*[ \t]%[^#;]", tags)` tag extraction of the
two db-lookup functions: at least one space/tab must follow the key, and
at least one character that is not '#' or ';' must follow the whitespace;
otherwise the tag field is malformed (`none`). -/
def extract_tags (s : List Char) : Option (List Char) :=
  let ws := s.takeWhile fun c => c == ' ' || c == '\t'
  if ws.length = 0 then none
  else
    let t := (s.drop ws.length).takeWhile fun c => ¬(c == '#' || c == ';')
    if t.length = 0 then none else some t

/-- Separator test of `strtok(tags, "| ")`. -/
def is_sep (c : Char) : Bool := c == '|' || c == ' '

/-- Fueled worker for `tokenize`. -/
def tokenize_go : Nat → List Char → List (List Char)
  | 0, _ => []
  | _ + 1, [] => []
  | fuel + 1, c :: cs =>
    if is_sep c then tokenize_go fuel cs
    else
      (c :: cs.takeWhile fun x => ¬ is_sep x)
        :: tokenize_go fuel (cs.dropWhile fun x => ¬ is_sep x)

/-- Embeds the `strtok(tags, "| ")` token stream: maximal runs of
non-separator characters. -/
def tokenize (l : List Char) : List (List Char) := tokenize_go l.length l

/-- Embeds `detect_rom_settings_in_db` of n64.cpp, with the text file
already split into lines (an unreadable file is the `[]` case, giving 0).
Scans for the first line starting with the lookup hash; a malformed tag
field on that line returns 2; otherwise the tags are parsed and applied,
giving 3 when region and cic were both resolved and 2 otherwise. -/
def detect_rom_settings_in_db (st : EngineState) (lookup_hash : List Char) :
    List (List Char) → EngineState × Nat
  | [] => (st, 0)
  | line :: rest =>
    if md5_matches 32 line lookup_hash then
      match extract_tags (line.drop 32) with
      | none => (st, 2)
      | some tags =>
        let r := parse_and_apply_db_tags st (tokenize tags)
        (r.1, if r.2 then 3 else 2)
    else detect_rom_settings_in_db st lookup_hash rest

/-- Embeds `detect_rom_settings_in_db_with_cartid` of n64.cpp: same scan
keyed by `cart_id_is_match`; the tag field starts after the "ID:" marker
plus the number of matched pattern characters. -/
def detect_rom_settings_in_db_with_cartid (st : EngineState) (cart_id : Nat → Char) :
    List (List Char) → EngineState × Nat
  | [] => (st, 0)
  | line :: rest =>
    let i := cart_id_is_match line cart_id
    if i ≠ 0 then
      match extract_tags (line.drop (3 + i)) with
      | none => (st, 2)
      | some tags =>
        let r := parse_and_apply_db_tags st (tokenize tags)
        (r.1, if r.2 then 3 else 2)
    else detect_rom_settings_in_db_with_cartid st cart_id rest

/-- Embeds the save-type switch of `detect_homebrew_header` (header byte
at 0x3f high nibble). -/
def homebrew_save_kind (c : Char) : MemoryType :=
  match hex_to_dec c with
  | 1 => .EEPROM_512
  | 2 => .EEPROM_2k
  | 3 => .SRAM_32k
  | 4 => .SRAM_96k
  | 5 => .FLASH_128k
  | _ => .NONE

/-- Embeds one iteration of the controller loop of
`detect_homebrew_header` for controller index `c_idx` with header byte
`ctrl`. -/
def homebrew_update_pad (cur : PadType) (ctrl : Nat) (c_idx : Nat) : PadType :=
  if ctrl ≠ 0 ∧ cur ≠ PadType.SNAC then
    if ctrl < 0x80 then
      if ctrl = 0x01 then .N64_PAD_WITH_RPAK
      else if ctrl = 0x02 then .N64_PAD_WITH_CPAK
      else if ctrl = 0x03 ∧ c_idx = 0 then .N64_PAD_WITH_TPAK
      else .N64_PAD
    else if ctrl = 0xff then .UNPLUGGED
    else cur
  else cur

/-- Embeds `detect_homebrew_header` of n64.cpp.  `ctrl` holds the four
controller-configuration header bytes, `cart_id` the 6-character cart
code.  Returns the new state and the bool result (false unless the
header is the homebrew format and auto-detection is on). -/
def detect_homebrew_header (st : EngineState) (ctrl : Nat × Nat × Nat × Nat)
    (cart_id : Nat → Char) : EngineState × Bool :=
  if ¬(cart_id 1 = 'E' ∧ cart_id 2 = 'D') then (st, false)
  else if is_auto st.host then
    let c0 := ctrl.1
    let c1 := ctrl.2.1
    let c2 := ctrl.2.2.1
    let c3 := ctrl.2.2.2
    let h0 := st.host
    let h1 := { h0 with
      saveTypeOpt := set_cart_save_type_val (homebrew_save_kind (cart_id 4)),
      rtcOpt := decide (hex_to_dec (cart_id 5) % 2 = 1),
      rpakOpt := decide (c0 = 0x01 ∨ c1 = 0x01 ∨ c2 = 0x01 ∨ c3 = 0x01),
      cpakOpt := decide (c0 = 0x02 ∨ c1 = 0x02 ∨ c2 = 0x02 ∨ c3 = 0x02),
      tpakOpt := decide (c0 = 0x03 ∨ c1 = 0x03 ∨ c2 = 0x03 ∨ c3 = 0x03) }
    let h2 := { h1 with
      pad0 := homebrew_update_pad h1.pad0 c0 0,
      pad1 := homebrew_update_pad h1.pad1 c1 1,
      pad2 := homebrew_update_pad h1.pad2 c2 2,
      pad3 := homebrew_update_pad h1.pad3 c3 3 }
    ({ st with host := h2 }, true)
  else (st, false)

/-- Embeds the region-code switch of `detect_rom_settings_from_first_chunk`:
the fixed set of PAL region letters, everything else NTSC. -/
def region_from_code (c : Char) : SystemType :=
  if c = 'D' ∨ c = 'F' ∨ c = 'H' ∨ c = 'I' ∨ c = 'L' ∨ c = 'P' ∨ c = 'S' ∨ c = 'U'
      ∨ c = 'W' ∨ c = 'X' ∨ c = 'Y' ∨ c = 'Z' then .PAL
  else .NTSC

/-- Embeds the signature switch of `detect_rom_settings_from_first_chunk`:
a known boot-code checksum maps to a (possibly region-overriding)
system/cic pair; an unknown checksum maps to `none`. -/
def cic_signature_entry (system_type : SystemType) (sig : Nat) : Option (SystemType × CIC) :=
  if sig = 0xa316adc55a ∨ sig = 0xa30dacd530 ∨ sig = 0x39c981107 ∨ sig = 0xd2828281b0
      ∨ sig = 0xd2be3c4486 ∨ sig = 0x9acc31e644 ∨ sig = 0x9474732e6b then
    some (system_type, if system_type ≠ SystemType.PAL then .CIC_NUS_6102 else .CIC_NUS_7101)
  else if sig = 0xa405397b05 ∨ sig = 0xa3fc388adb then some (.PAL, .CIC_NUS_7102)
  else if sig = 0xa0f26f62fe ∨ sig = 0xa0e96e72d4 then some (.NTSC, .CIC_NUS_6101)
  else if sig = 0xa9229d7c45 ∨ sig = 0xa9199c8c1b ∨ sig = 0x271316d406 then
    some (system_type, if system_type ≠ SystemType.PAL then .CIC_NUS_6103 else .CIC_NUS_7103)
  else if sig = 0xf8b860ed00 ∨ sig = 0xf8af5ffcd6 then
    some (system_type, if system_type ≠ SystemType.PAL then .CIC_NUS_6105 else .CIC_NUS_7105)
  else if sig = 0xba5ba4b8cd then
    some (system_type, if system_type ≠ SystemType.PAL then .CIC_NUS_6106 else .CIC_NUS_7106)
  else if sig = 0x12daafc8aab then some (system_type, .CIC_NUS_5167)
  else if sig = 0xa9df4b39e1 then some (system_type, .CIC_NUS_8303)
  else if sig = 0xaa764e39e1 then some (system_type, .CIC_NUS_8401)
  else if sig = 0xabb0b739e1 then some (system_type, .CIC_NUS_DDUS)
  else if sig = 0x81ce470326 ∨ sig = 0x827a47195a ∨ sig = 0x82551e4848 then
    some (system_type, .CIC_NUS_5101)
  else none

/-- Embeds the pure resolution part of
`detect_rom_settings_from_first_chunk`: region default from the region
code, then the two checksums `signatures[0]` and `signatures[1]` tried in
that order against the signature table (the `n = 2` do/while loop); if
neither matches, the region-default cic 6102/7101 is assigned and
`is_known_cic` is false.  Result: (system type, cic, is_known_cic). -/
def resolve_first_chunk (region_code : Char) (sigs : Nat × Nat) : SystemType × CIC × Bool :=
  let st := region_from_code region_code
  match cic_signature_entry st sigs.1 with
  | some (st2, c) => (st2, c, true)
  | none =>
    match cic_signature_entry st sigs.2 with
    | some (st2, c) => (st2, c, true)
    | none => (st, if st ≠ SystemType.PAL then .CIC_NUS_6102 else .CIC_NUS_7101, false)

/-- Embeds `detect_rom_settings_from_first_chunk` of n64.cpp including its
config side effects: when auto-detection is on the resolved system type
and cic are written and `is_known_cic` is returned; when off nothing is
written and true is returned. -/
def detect_rom_settings_from_first_chunk (st : EngineState) (region_code : Char)
    (sigs : Nat × Nat) : EngineState × Bool :=
  let r := resolve_first_chunk region_code sigs
  if is_auto st.host then
    ({ st with host := { st.host with sysType := r.1, cicType := r.2.1 } }, r.2.2)
  else (st, true)

/-- Embeds the post-stream complement step of `n64_rom_tx` (lines
1226-1236): when the detection status is 0 or 2, the boot-chip signature
heuristic runs and, if it returns true, bit 0 is or:ed into the status
(2 becomes 3, 0 becomes 1). -/
def complement_with_heuristic (st : EngineState) (detected : Nat) (region_code : Char)
    (sigs : Nat × Nat) : EngineState × Nat :=
  if detected = 0 ∨ detected = 2 then
    let r := detect_rom_settings_from_first_chunk st region_code sigs
    (r.1, if r.2 then detected ||| 1 else detected)
  else (st, detected)

/-- Embeds the two accumulation loops of `calc_bootcode_checksums`: a
64-bit wrapping sum of the 32-bit words from byte 0x40 up to 0xc00
(`bootcode_sums[1]`, the Aleck64 range), continued up to byte 0x1000
(`bootcode_sums[0]`).  `buf` maps a word index to the word value.
Result: (bootcode_sums[0], bootcode_sums[1]). -/
def calc_bootcode_checksums (buf : Nat → Nat) : Nat × Nat :=
  let sum1 := (List.range (768 - 16)).foldl (fun s i => (s + buf (16 + i)) % 2 ^ 64) 0
  let sum0 := (List.range (1024 - 768)).foldl (fun s i => (s + buf (768 + i)) % 2 ^ 64) sum1
  (sum0, sum1)

/-- A 64-bit wrapping sum of the words of `buf` with indices in
`[a, a + n)`. -/
def sum_words (buf : Nat → Nat) (a n : Nat) : Nat :=
  (List.range n).foldl (fun s i => (s + buf (a + i)) % 2 ^ 64) 0

/-- Embeds `FileReadAdv` at the interface level: `len` bytes of `file`
starting at byte `pos`, zero-padded past the end of the file. -/
def file_read (file : List Nat) (pos len : Nat) : List Nat :=
  let r := (file.drop pos).take len
  r ++ List.replicate (len - r.length) 0

/-- Embeds `FileWriteAdv` at the interface level: overwrite `file` at
byte `pos` with `data`. -/
def file_write (file : List Nat) (pos : Nat) (data : List Nat) : List Nat :=
  file.take pos ++ data ++ file.drop (pos + data.length)

/-- The pak byte-order transcode shared by the save-data read and write
paths of n64.cpp: CPAK/TPAK buffers are passed through
`normalizeData(buffer, sz, DataFormat::LITTLE_ENDIAN)`, everything else
is untouched. -/
def pak_transcode (t : MemoryType) (sz : Nat) (b : List Nat) : List Nat :=
  if t = MemoryType.CPAK ∨ t = MemoryType.TPAK then normalizeData b sz .LITTLE_ENDIAN else b

/-- Fueled worker for the region-locating while loop shared by
`n64_load_savedata` and `n64_save_savedata`: starting from slot `idx`,
advance while `pos` is at or past the end of slot `idx`; stepping to a
slot index at or past `mounted` makes the request invalid (`none`). -/
def find_go (cfg : SaveConfig) (mounted pos : Nat) : Nat → Nat → Option Nat
  | 0, _ => none
  | fuel + 1, idx =>
    if pos < get_save_file_offset cfg (idx + 1) then some idx
    else if mounted ≤ idx + 1 then none
    else find_go cfg mounted pos fuel (idx + 1)

/-- The region-locating loop of the save-data block I/O paths. -/
def find_save_file (cfg : SaveConfig) (mounted pos : Nat) : Option Nat :=
  find_go cfg mounted pos (mounted + 1) 0

/-- Embeds `n64_load_savedata` of n64.cpp: locate the owning region of
`lba * blksz`; out of range (or an empty backing file) delivers a
zero-filled block; in range, the file is read at the local offset and
pak regions are transcoded on the way out.  The Bool is the transport
handshake (`spi_w(UIO_SECTOR_RD | ack)` + block write), which always
completes.  `types` holds the kinds of the mounted regions in slot order. -/
def n64_load_savedata (cfg : SaveConfig) (types : List MemoryType) (mounted : Nat)
    (files : List (List Nat)) (lba blksz buffer_size sz : Nat) : List Nat × Bool :=
  let pos := lba * blksz
  match find_save_file cfg mounted pos with
  | none => (List.replicate buffer_size 0, true)
  | some idx =>
    let file := files.getD idx []
    let lpos := pos - get_save_file_offset cfg idx
    if file.length ≠ 0 then
      let buffer := file_read file lpos buffer_size
      (pak_transcode (types.getD idx .NONE) sz buffer, true)
    else (List.replicate buffer_size 0, true)

/-- Embeds `n64_save_savedata` of n64.cpp: the inbound transport block is
always consumed (`spi_block_read` runs before the invalid check); an
out-of-range request is then dropped without touching any file; in range,
pak regions are transcoded on the way in and `sz` bytes are written at
the local offset.  Result: (inbound block consumed, new files). -/
def n64_save_savedata (cfg : SaveConfig) (types : List MemoryType) (mounted : Nat)
    (files : List (List Nat)) (lba blksz sz : Nat) (inbound : List Nat) :
    Bool × List (List Nat) :=
  let pos := lba * blksz
  match find_save_file cfg mounted pos with
  | none => (true, files)
  | some idx =>
    let file := files.getD idx []
    let lpos := pos - get_save_file_offset cfg idx
    if sz ≠ 0 then
      let data := pak_transcode (types.getD idx .NONE) sz inbound
      (true, files.set idx (file_write file lpos (data.take sz)))
    else (true, files)

/-- A host config with auto-detection ON and neutral values everywhere. -/
def host_on : Host :=
  { autodetect := true, sysType := .UNKNOWN, cicType := .UNKNOWN, noEpak := false,
    cpakOpt := false, rpakOpt := false, tpakOpt := false, rtcOpt := false,
    saveTypeOpt := .NONE, pad0 := .N64_PAD, pad1 := .N64_PAD, pad2 := .N64_PAD,
    pad3 := .N64_PAD, ar := .ORIGINAL }

/-- The same host config with auto-detection OFF. -/
def host_off : Host := { host_on with autodetect := false }

/-- Engine state with auto-detection ON and an empty old_ar slot. -/
def st_on : EngineState := { host := host_on, old_ar := .UNKNOWN }

/-- Engine state with auto-detection OFF and an empty old_ar slot. -/
def st_off : EngineState := { host := host_off, old_ar := .UNKNOWN }

/-- A concrete first chunk (as a word-index function) whose short-range
checksum 0x40-0xc00 is 0x39c981107 (a table entry resolving to cic 6102)
and whose long-range checksum 0x40-0x1000 is 0x271316d406 (a table entry
resolving to cic 6103). -/
def c2_buf (i : Nat) : Nat :=
  if 16 ≤ i ∧ i < 19 then 0xffffffff
  else if i = 19 then 0x9c98110a
  else if 768 ≤ i ∧ i < 803 then 0xffffffff
  else if i = 803 then 0x767ec322
  else 0

/-- A 32-character lookup hash (all zeros) for the C3 counterexample. -/
def c3_hash : List Char := List.replicate 32 '0'

/-- A knowledge-base line whose key matches `c3_hash` but whose tag field
is malformed (only a comment follows the whitespace). -/
def c3_bad_line : List Char := c3_hash ++ [' ', '#']

/-- A knowledge-base line whose key matches `c3_hash` with a well-formed
tag field resolving both region and cic. -/
def c3_good_line : List Char := c3_hash ++ [' ', 'c', 'i', 'c', '6', '1', '0', '1']

/-- A concrete save config for witnesses: 32k SRAM save, controller-pak
and transfer-pak flags set (mounting all six possible regions). -/
def c1_cfg : SaveConfig := { saveType := .SRAM_32k, cpak := true, tpak := true }

/-- Invariant of the wide-display 1-slot stack: whenever a saved ratio is
pending, the current ratio is FULL. -/
abbrev wide_inv (s : ArType × ArType) : Prop :=
  s.2 ≠ ArType.UNKNOWN → s.1 = ArType.FULL



theorem swap2_length (l : List Nat) : (swap2 l).length = l.length := by
  induction l using swap2.induct <;> simp [swap2, *]

theorem swap4_length (l : List Nat) : (swap4 l).length = l.length := by
  induction l using swap4.induct <;> simp [swap4, *]

theorem swap2_take_drop (l : List Nat) :
    swap2 (l.take (2 * (l.length / 2))) ++ l.drop (2 * (l.length / 2)) = swap2 l := by
  induction l using swap2.induct with
  | case1 => simp [swap2]
  | case2 a => simp [swap2]
  | case3 a b rest ih =>
    have h : 2 * ((rest.length + 1 + 1) / 2) = 2 * (rest.length / 2) + 1 + 1 := by omega
    simp only [List.length_cons, h, List.take_succ_cons, List.drop_succ_cons, swap2,
      List.cons_append]
    rw [ih]

theorem swap4_take_drop (l : List Nat) :
    swap4 (l.take (4 * (l.length / 4))) ++ l.drop (4 * (l.length / 4)) = swap4 l := by
  induction l using swap4.induct with
  | case1 a b c d rest ih =>
    have h : 4 * ((rest.length + 1 + 1 + 1 + 1) / 4) = 4 * (rest.length / 4) + 1 + 1 + 1 + 1 := by
      omega
    simp only [List.length_cons, h, List.take_succ_cons, List.drop_succ_cons, swap4,
      List.cons_append]
    rw [ih]
  | case2 l h =>
    match l, h with
    | [], _ => simp [swap4]
    | [a], _ => simp [swap4]
    | [a, b], _ => simp [swap4]
    | [a, b, c], _ => simp [swap4]
    | a :: b :: c :: d :: rest, h => exact (h a b c d rest rfl).elim

theorem normalize_bs_eq (l : List Nat) : normalizeData l l.length .BYTE_SWAPPED = swap2 l := by
  simpa [normalizeData] using swap2_take_drop l

theorem normalize_le_eq (l : List Nat) : normalizeData l l.length .LITTLE_ENDIAN = swap4 l := by
  simpa [normalizeData] using swap4_take_drop l



theorem swap2_getD (l : List Nat) : ∀ i : Nat, 2 * i + 1 < l.length →
    (swap2 l).getD (2 * i) 0 = l.getD (2 * i + 1) 0
    ∧ (swap2 l).getD (2 * i + 1) 0 = l.getD (2 * i) 0 := by
  induction l using swap2.induct with
  | case1 => intro i h; simp at h
  | case2 a => intro i h; simp at h
  | case3 a b rest ih =>
    intro i h
    cases i with
    | zero => simp [swap2]
    | succ k =>
      have e1 : 2 * (k + 1) = 2 * k + 1 + 1 := by omega
      have e2 : 2 * (k + 1) + 1 = 2 * k + 1 + 1 + 1 := by omega
      rw [e2, e1]
      simp only [swap2, List.getD_cons_succ]
      exact ih k (by simp at h; omega)

theorem swap4_getD (l : List Nat) : ∀ i j : Nat, j < 4 → 4 * i + 3 < l.length →
    (swap4 l).getD (4 * i + j) 0 = l.getD (4 * i + (3 - j)) 0 := by
  induction l using swap4.induct with
  | case1 a b c d rest ih =>
    intro i j hj h
    cases i with
    | zero =>
      interval_cases j <;> simp [swap4]
    | succ k =>
      have e1 : 4 * (k + 1) + j = 4 * k + j + 1 + 1 + 1 + 1 := by omega
      have e2 : 4 * (k + 1) + (3 - j) = 4 * k + (3 - j) + 1 + 1 + 1 + 1 := by omega
      rw [e1, e2]
      simp only [swap4, List.getD_cons_succ]
      exact ih k j hj (by simp at h; omega)
  | case2 l h =>
    match l, h with
    | [], _ => intro i j hj h; simp at h
    | [a], _ => intro i j hj h; simp at h
    | [a, b], _ => intro i j hj h; simp at h; omega
    | [a, b, c], _ => intro i j hj h; simp at h
    | a :: b :: c :: d :: rest, h => exact (h a b c d rest rfl).elim

theorem swap4_swap4 (l : List Nat) : swap4 (swap4 l) = l := by
  induction l using swap4.induct with
  | case1 a b c d rest ih => simp [swap4, ih]
  | case2 l h =>
    match l, h with
    | [], _ => rfl
    | [a], _ => simp [swap4]
    | [a, b], _ => simp [swap4]
    | [a, b, c], _ => simp [swap4]
    | a :: b :: c :: d :: rest, h => exact (h a b c d rest rfl).elim

theorem take_append_of_length_eq {A B : List Nat} {n : Nat} (h : A.length = n) :
    (A ++ B).take n = A := by
  subst h; exact List.take_left A B

theorem drop_append_of_length_eq {A B : List Nat} {n : Nat} (h : A.length = n) :
    (A ++ B).drop n = B := by
  subst h; exact List.drop_left A B

theorem normalize_le_invol (sz : Nat) (l : List Nat) :
    normalizeData (normalizeData l sz .LITTLE_ENDIAN) sz .LITTLE_ENDIAN = l := by
  simp only [normalizeData]
  by_cases hn : 4 * (sz / 4) <= l.length
  · have hlen : (swap4 (l.take (4 * (sz / 4)))).length = 4 * (sz / 4) := by
      rw [swap4_length, List.length_take]; omega
    rw [take_append_of_length_eq hlen, drop_append_of_length_eq hlen, swap4_swap4,
      List.take_append_drop]
  · have h1 : l.take (4 * (sz / 4)) = l := List.take_of_length_le (by omega)
    have h2 : l.drop (4 * (sz / 4)) = [] := List.drop_eq_nil_of_le (by omega)
    rw [h1, h2, List.append_nil]
    have h3 : (swap4 l).take (4 * (sz / 4)) = swap4 l :=
      List.take_of_length_le (by rw [swap4_length]; omega)
    have h4 : (swap4 l).drop (4 * (sz / 4)) = [] :=
      List.drop_eq_nil_of_le (by rw [swap4_length]; omega)
    rw [h3, h4, List.append_nil, swap4_swap4]

/-- Claim C6: under the byte-order classification fixed by the first
4-byte word of the first chunk, normalization rewrites a chunk as follows:
byte-swapped-16 swaps each adjacent byte pair, little-endian reverses
each 4-byte word, big-endian or undetermined leave every byte unchanged;
the word 0x40123780 classifies as big-endian (bytes unmodified) and the
word 0x12408037 classifies as byte-swapped with bytes AA BB CC DD
becoming BB AA DD CC. -/
theorem n64_C6 :
    detectRomFormat 0x40123780 = DataFormat.BIG_ENDIAN
    ∧ detectRomFormat 0x12408037 = DataFormat.BYTE_SWAPPED
    ∧ (∀ (l : List Nat) (sz : Nat),
        normalizeData l sz .BIG_ENDIAN = l ∧ normalizeData l sz .UNKNOWN = l)
    ∧ (∀ l : List Nat,
        (normalizeData l l.length .BYTE_SWAPPED).length = l.length
        ∧ (normalizeData l l.length .LITTLE_ENDIAN).length = l.length)
    ∧ (∀ (l : List Nat) (i : Nat), 2 * i + 1 < l.length →
        (normalizeData l l.length .BYTE_SWAPPED).getD (2 * i) 0 = l.getD (2 * i + 1) 0
        ∧ (normalizeData l l.length .BYTE_SWAPPED).getD (2 * i + 1) 0 = l.getD (2 * i) 0)
    ∧ (∀ (l : List Nat) (i j : Nat), j < 4 → 4 * i + 3 < l.length →
        (normalizeData l l.length .LITTLE_ENDIAN).getD (4 * i + j) 0 = l.getD (4 * i + (3 - j)) 0)
    ∧ normalizeData [0xAA, 0xBB, 0xCC, 0xDD] 4 .BYTE_SWAPPED = [0xBB, 0xAA, 0xDD, 0xCC] := by
  refine ⟨by decide, by decide, ?_, ?_, ?_, ?_, by decide⟩
  · intro l sz; exact ⟨rfl, rfl⟩
  · intro l
    rw [normalize_bs_eq, normalize_le_eq, swap2_length, swap4_length]
    exact ⟨rfl, rfl⟩
  · intro l i h
    rw [normalize_bs_eq]
    exact swap2_getD l i h
  · intro l i j hj h
    rw [normalize_le_eq]
    exact swap4_getD l i j hj h

/-- Witness for n64_C6 at a concrete chunk. -/
theorem n64_C6_witness :
    (normalizeData [10, 11, 12, 13] 4 .BYTE_SWAPPED).getD 0 0 = 11
    ∧ (normalizeData [10, 11, 12, 13] 4 .LITTLE_ENDIAN).getD 1 0 = 12 := by
  have h1 := n64_C6.2.2.2.2.1 [10, 11, 12, 13] 0 (by decide)
  have h2 := n64_C6.2.2.2.2.2.1 [10, 11, 12, 13] 0 1 (by decide) (by decide)
  exact ⟨by simpa using h1.1, by simpa using h2⟩

/-- Claim C7: the pak byte-order transcode applied by the save path
(`n64_save_savedata`) before storing and by the load path
(`n64_load_savedata`) after reading is its own inverse for every
pak-type region and every block length, so a written buffer reads back
unchanged. -/
theorem n64_C7 (t : MemoryType) (sz : Nat) (b : List Nat)
    (hpak : t = MemoryType.CPAK ∨ t = MemoryType.TPAK) :
    pak_transcode t sz (pak_transcode t sz b) = b := by
  unfold pak_transcode
  rw [if_pos hpak, if_pos hpak]
  exact normalize_le_invol sz b

/-- Witness for n64_C7 at a concrete pak buffer. -/
theorem n64_C7_witness :
    pak_transcode MemoryType.CPAK 6 (pak_transcode MemoryType.CPAK 6 [1, 2, 3, 4, 5, 6])
      = [1, 2, 3, 4, 5, 6] :=
  n64_C7 MemoryType.CPAK 6 [1, 2, 3, 4, 5, 6] (Or.inl rfl)


/-- Claim C1: after the Address-Space Manager mounts any combination of
one save-type region, one transfer-pak region and controller-pak regions
for a single ROM load, the slot offsets computed by
`get_save_file_offset` start at 0, coincide with the cumulative sums of
the region sizes in mount order (save region first if present, then the
transfer-pak or first controller-pak region, then the remaining
controller-pak regions), each region is gap-free and disjoint from the
next, and the last region ends exactly at the total size. -/
theorem n64_C1 (cfg : SaveConfig) (h : isCartSaveType cfg.saveType) :
    save_space_partition cfg := by
  obtain ⟨st, cp, tp⟩ := cfg
  cases st <;> cases cp <;> cases tp <;>
    first
      | exact absurd h (by decide)
      | decide

/-- Witness for n64_C1 at the maximal configuration (save + tpak + cpak). -/
theorem n64_C1_witness : isCartSaveType c1_cfg.saveType ∧ save_space_partition c1_cfg :=
  ⟨by decide, n64_C1 c1_cfg (by decide)⟩

theorem get_save_file_offset_mono_succ (cfg : SaveConfig) (idx : Nat) :
    get_save_file_offset cfg idx ≤ get_save_file_offset cfg (idx + 1) := by
  rcases idx with _ | _ | n <;>
    by_cases hs : cfg.saveType = MemoryType.NONE <;> by_cases ht : cfg.tpak = true <;>
      simp [get_save_file_offset, hs, ht, get_save_size]

theorem get_save_file_offset_mono (cfg : SaveConfig) {i j : Nat} (h : i ≤ j) :
    get_save_file_offset cfg i ≤ get_save_file_offset cfg j := by
  induction j with
  | zero => cases Nat.le_zero.mp h; exact Nat.le_refl _
  | succ k ih =>
    rcases Nat.eq_or_lt_of_le h with rfl | hlt
    · exact Nat.le_refl _
    · exact Nat.le_trans (ih (Nat.lt_succ_iff.mp hlt)) (get_save_file_offset_mono_succ cfg k)

theorem find_go_none (cfg : SaveConfig) (mounted pos : Nat)
    (h : get_save_file_offset cfg mounted ≤ pos) :
    ∀ (fuel idx : Nat), idx < mounted → find_go cfg mounted pos fuel idx = none := by
  intro fuel
  induction fuel with
  | zero => intro idx _; rfl
  | succ f ih =>
    intro idx hidx
    have h1 : ¬ pos < get_save_file_offset cfg (idx + 1) := by
      have := get_save_file_offset_mono cfg (show idx + 1 ≤ mounted from hidx)
      omega
    unfold find_go
    rw [if_neg h1]
    by_cases h2 : mounted ≤ idx + 1
    · rw [if_pos h2]
    · rw [if_neg h2]
      exact ih (idx + 1) (by omega)

theorem find_save_file_none (cfg : SaveConfig) (mounted pos : Nat) (hm : 1 ≤ mounted)
    (h : get_save_file_offset cfg mounted ≤ pos) :
    find_save_file cfg mounted pos = none :=
  find_go_none cfg mounted pos h (mounted + 1) 0 (by omega)

/-- Claim C8: a block request whose byte offset is at or beyond the end
of the last mounted region is served non-fatally: the read path delivers
a zero-filled block and still completes the transport handshake, and the
write path still consumes the inbound transport block and then discards
it without modifying any backing file. -/
theorem n64_C8 (cfg : SaveConfig) (types : List MemoryType) (mounted : Nat)
    (files : List (List Nat)) (lba blksz buffer_size sz : Nat) (inbound : List Nat)
    (hm : 1 ≤ mounted)
    (hoff : get_save_file_offset cfg mounted ≤ lba * blksz) :
    n64_load_savedata cfg types mounted files lba blksz buffer_size sz
      = (List.replicate buffer_size 0, true)
    ∧ n64_save_savedata cfg types mounted files lba blksz sz inbound = (true, files) := by
  have hf := find_save_file_none cfg mounted (lba * blksz) hm hoff
  constructor
  · simp [n64_load_savedata, hf]
  · simp [n64_save_savedata, hf]

/-- Witness for n64_C8: no regions configured, one slot mounted, request
one full block past the space. -/
theorem n64_C8_witness :
    (1 ≤ 1 ∧ get_save_file_offset ⟨MemoryType.NONE, false, false⟩ 1 ≤ 1 * 32768)
    ∧ n64_load_savedata ⟨MemoryType.NONE, false, false⟩ [] 1 [[7]] 1 32768 3 3
        = ([0, 0, 0], true)
    ∧ n64_save_savedata ⟨MemoryType.NONE, false, false⟩ [] 1 [[7]] 1 32768 3 [5, 6, 7]
        = (true, [[7]]) := by
  have h := n64_C8 ⟨MemoryType.NONE, false, false⟩ [] 1 [[7]] 1 32768 3 3 [5, 6, 7]
    (by decide) (by decide)
  exact ⟨⟨by decide, by decide⟩, by simpa using h.1, h.2⟩


set_option maxRecDepth 100000 in
theorem calc_bootcode_checksums_sum1 (buf : Nat → Nat) :
    (calc_bootcode_checksums buf).2 = sum_words buf 16 752 := rfl

set_option maxRecDepth 100000 in
theorem calc_bootcode_checksums_sum0 (buf : Nat → Nat) :
    (calc_bootcode_checksums buf).1 = sum_words buf 16 1008 := by
  unfold sum_words
  rw [show (1008 : Nat) = 752 + 256 by norm_num, List.range_add, List.foldl_append,
    List.foldl_map]
  have he : (fun (s i : Nat) => (s + buf (16 + (752 + i))) % 2 ^ 64)
      = fun (s i : Nat) => (s + buf (768 + i)) % 2 ^ 64 := by
    funext s i
    have e : 16 + (752 + i) = 768 + i := by omega
    rw [e]
  rw [he]
  rfl

theorem resolve_first_chunk_long_first (rc : Char) (sigs : Nat × Nat) :
    (∀ e, cic_signature_entry (region_from_code rc) sigs.1 = some e →
        resolve_first_chunk rc sigs = (e.1, e.2, true))
    ∧ (cic_signature_entry (region_from_code rc) sigs.1 = none →
        (∀ e, cic_signature_entry (region_from_code rc) sigs.2 = some e →
            resolve_first_chunk rc sigs = (e.1, e.2, true))
        ∧ (cic_signature_entry (region_from_code rc) sigs.2 = none →
            resolve_first_chunk rc sigs
              = (region_from_code rc,
                 (if region_from_code rc ≠ SystemType.PAL then CIC.CIC_NUS_6102
                  else CIC.CIC_NUS_7101),
                 false))) := by
  refine ⟨?_, fun h1 => ⟨?_, fun h2 => ?_⟩⟩
  · intro e he
    rcases e with ⟨s2, c2⟩
    simp [resolve_first_chunk, he]
  · intro e he
    rcases e with ⟨s2, c2⟩
    simp [resolve_first_chunk, h1, he]
  · simp [resolve_first_chunk, h1, h2]

set_option maxRecDepth 100000 in
/-- Counterexample to claim C2 as stated: a concrete first chunk whose
short-range checksum (bytes 0x40-0xc00) equals the table entry
0x39c981107 (cic 6102), yet the result of the heuristic comes from the
long-range checksum (bytes 0x40-0x1000, here 0x271316d406, cic 6103):
the code tries `bootcode_sums[0]` (long range) first, not the short
range. -/
theorem n64_C2_counterexample :
    calc_bootcode_checksums c2_buf = (0x271316d406, 0x39c981107)
    ∧ cic_signature_entry SystemType.NTSC 0x39c981107
        = some (SystemType.NTSC, CIC.CIC_NUS_6102)
    ∧ resolve_first_chunk 'E' (calc_bootcode_checksums c2_buf)
        = (SystemType.NTSC, CIC.CIC_NUS_6103, true)
    ∧ CIC.CIC_NUS_6103 ≠ CIC.CIC_NUS_6102 :=
  ⟨by decide, by decide, by decide, by decide⟩

/-- Claim C2 (amended): `bootcode_sums[1]` is the short-range sum (bytes
0x40-0xc00, words 16..767) and `bootcode_sums[0]` the long-range sum
(bytes 0x40-0x1000, words 16..1023); the heuristic compares the
LONG-range checksum against the signature table first, and only if it
matches no entry does it compare the short-range checksum; if neither
matches, the region-default cic is assigned with is_known_cic false. -/
theorem n64_C2 (buf : Nat → Nat) (rc : Char) :
    (calc_bootcode_checksums buf).2 = sum_words buf 16 752
    ∧ (calc_bootcode_checksums buf).1 = sum_words buf 16 1008
    ∧ (∀ e, cic_signature_entry (region_from_code rc) (calc_bootcode_checksums buf).1 = some e →
        resolve_first_chunk rc (calc_bootcode_checksums buf) = (e.1, e.2, true))
    ∧ (cic_signature_entry (region_from_code rc) (calc_bootcode_checksums buf).1 = none →
        (∀ e, cic_signature_entry (region_from_code rc) (calc_bootcode_checksums buf).2 = some e →
            resolve_first_chunk rc (calc_bootcode_checksums buf) = (e.1, e.2, true))
        ∧ (cic_signature_entry (region_from_code rc) (calc_bootcode_checksums buf).2 = none →
            resolve_first_chunk rc (calc_bootcode_checksums buf)
              = (region_from_code rc,
                 (if region_from_code rc ≠ SystemType.PAL then CIC.CIC_NUS_6102
                  else CIC.CIC_NUS_7101),
                 false))) :=
  ⟨calc_bootcode_checksums_sum1 buf, calc_bootcode_checksums_sum0 buf,
   (resolve_first_chunk_long_first rc (calc_bootcode_checksums buf)).1,
   (resolve_first_chunk_long_first rc (calc_bootcode_checksums buf)).2⟩

set_option maxRecDepth 100000 in
/-- Witness for n64_C2 on the all-zero first chunk (no signature
matches, so the default cic is assigned with is_known_cic false). -/
theorem n64_C2_witness :
    resolve_first_chunk 'E' (calc_bootcode_checksums fun _ => 0)
      = (SystemType.NTSC, CIC.CIC_NUS_6102, false) := by
  have h := (n64_C2 (fun _ => 0) 'E').2.2.2
  have h1 : cic_signature_entry (region_from_code 'E')
      (calc_bootcode_checksums fun _ => 0).1 = none := by decide
  have h2 : cic_signature_entry (region_from_code 'E')
      (calc_bootcode_checksums fun _ => 0).2 = none := by decide
  have h3 := (h h1).2 h2
  rw [h3]
  decide

/-- Counterexample to claim C3 as stated: a two-line knowledge base whose
first line matches the lookup hash but has a malformed tag field, and
whose second line matches with a well-formed tag field resolving region
and cic.  The lookup terminates at the malformed line with non-zero
status 2 instead of continuing to the second line (which alone would
give 3). -/
theorem n64_C3_counterexample :
    (detect_rom_settings_in_db st_on c3_hash [c3_bad_line, c3_good_line]).2 = 2
    ∧ (detect_rom_settings_in_db st_on c3_hash [c3_good_line]).2 = 3 :=
  ⟨by decide, by decide⟩

/-- Claim C3 (amended): when the key of a knowledge-base line matches the
current ROM but its tag field is malformed, the lookup terminates
immediately with detection status 2 (an incomplete match needing further
region/cic detection), leaving the engine state untouched; it does not
continue scanning the remaining lines.  This holds for both the
hash-keyed and the cart-code-keyed lookup. -/
theorem n64_C3 (st : EngineState) (h : List Char) (line : List Char)
    (rest : List (List Char))
    (hm : md5_matches 32 line h = true)
    (hmal : extract_tags (line.drop 32) = none) :
    detect_rom_settings_in_db st h (line :: rest) = (st, 2)
    ∧ ∀ (cart : Nat → Char) (line2 : List Char) (rest2 : List (List Char)),
        cart_id_is_match line2 cart ≠ 0 →
        extract_tags (line2.drop (3 + cart_id_is_match line2 cart)) = none →
        detect_rom_settings_in_db_with_cartid st cart (line2 :: rest2) = (st, 2) := by
  constructor
  · simp [detect_rom_settings_in_db, hm, hmal]
  · intro cart line2 rest2 hc hmal2
    simp [detect_rom_settings_in_db_with_cartid, hc, hmal2]

/-- Witness for n64_C3 at the concrete malformed lines. -/
theorem n64_C3_witness :
    detect_rom_settings_in_db st_on c3_hash [c3_bad_line] = (st_on, 2)
    ∧ detect_rom_settings_in_db_with_cartid st_on
        (fun i => ['A', 'B', 'C', 'D', 'E', 'F'].getD i '?')
        [['I', 'D', ':', 'A', 'B', 'C', 'D', 'E', 'F', ' ', '#']] = (st_on, 2) := by
  have h := n64_C3 st_on c3_hash c3_bad_line [] (by decide) (by decide)
  exact ⟨h.1, h.2 (fun i => ['A', 'B', 'C', 'D', 'E', 'F'].getD i '?')
    ['I', 'D', ':', 'A', 'B', 'C', 'D', 'E', 'F', ' ', '#'] [] (by decide) (by decide)⟩

/-- Counterexample to claim C4 as stated: with auto-detection on, a
metadata-only match (status 2) complemented by the heuristic on a first
chunk whose checksums match no signature leaves the final status at 2
(bit 0 clear), even though both the resolved region (NTSC) and the
resolved boot-chip identity (the best-guess cic 6102, also written into
the config) end up non-unknown — refuting the claimed "if and only if". -/
theorem n64_C4_counterexample :
    (complement_with_heuristic st_on 2 'E' (0, 0)).2 = 2
    ∧ (resolve_first_chunk 'E' (0, 0)).1 ≠ SystemType.UNKNOWN
    ∧ (resolve_first_chunk 'E' (0, 0)).2.1 ≠ CIC.UNKNOWN
    ∧ (complement_with_heuristic st_on 2 'E' (0, 0)).1.host.sysType ≠ SystemType.UNKNOWN
    ∧ (complement_with_heuristic st_on 2 'E' (0, 0)).1.host.cicType ≠ CIC.UNKNOWN := by
  decide

/-- Claim C4 (amended): for a metadata-only match (status 2) the
boot-chip signature heuristic always runs before the outcome is final
(the final state is that of the heuristic), and the final Detection
Outcome is 3 exactly when auto-detection is off or the heuristic matched
a known signature (is_known_cic); otherwise it stays 2.  A best-guess
cic assignment with auto-detection on leaves bit 0 clear even though the
assigned region and cic are non-unknown. -/
theorem n64_C4 (st : EngineState) (rc : Char) (sigs : Nat × Nat) :
    (complement_with_heuristic st 2 rc sigs).1
      = (detect_rom_settings_from_first_chunk st rc sigs).1
    ∧ ((complement_with_heuristic st 2 rc sigs).2 = 3
        ↔ (is_auto st.host = false ∨ (resolve_first_chunk rc sigs).2.2 = true))
    ∧ ((complement_with_heuristic st 2 rc sigs).2 = 2
        ∨ (complement_with_heuristic st 2 rc sigs).2 = 3) := by
  by_cases ha : is_auto st.host <;>
    cases hk : (resolve_first_chunk rc sigs).2.2 <;>
      simp [complement_with_heuristic, detect_rom_settings_from_first_chunk, ha, hk]

theorem cart_id_go_full (cart : Nat → Char) (l : List Char) :
    ∀ i : Nat, 6 ≤ i + l.length →
      (∀ k, k < l.length → i + k < 6 →
        ¬(i + k ≠ 0 ∧ isspace (l.getD k ' ') = true)
        ∧ (l.getD k ' ' = '_' ∨ l.getD k ' ' = cart (i + k))) →
      cart_id_go cart l i = 6 := by
  induction l with
  | nil => intro i _ _; rfl
  | cons c cs ih =>
    intro i hlen hcond
    unfold cart_id_go
    by_cases h6 : 6 ≤ i
    · rw [if_pos h6]
    · have hk0 := hcond 0 (by simp) (by omega)
      simp only [List.getD_cons_zero, Nat.add_zero] at hk0
      rw [if_neg h6, if_neg hk0.1, if_neg (by rcases hk0.2 with h | h <;> simp [h])]
      refine ih (i + 1) (by simp at hlen ⊢; omega) ?_
      intro k hk hik
      have := hcond (k + 1) (by simpa using Nat.succ_lt_succ hk) (by omega)
      have e : i + (k + 1) = i + 1 + k := by omega
      rw [e] at this
      simpa using this

theorem cart_id_go_ws (cart : Nat → Char) (l : List Char) :
    ∀ i t : Nat, t < l.length → i + t < 6 → i + t ≠ 0 →
      isspace (l.getD t ' ') = true →
      (∀ k, k < t →
        ¬(i + k ≠ 0 ∧ isspace (l.getD k ' ') = true)
        ∧ (l.getD k ' ' = '_' ∨ l.getD k ' ' = cart (i + k))) →
      cart_id_go cart l i = i + t := by
  induction l with
  | nil => intro i t ht; simp at ht
  | cons c cs ih =>
    intro i t ht hlt hne hsp hcond
    unfold cart_id_go
    cases t with
    | zero =>
      simp only [List.getD_cons_zero] at hsp
      rw [if_neg (by omega), if_pos ⟨by omega, hsp⟩]
      omega
    | succ u =>
      have hk0 := hcond 0 (by omega)
      simp only [List.getD_cons_zero, Nat.add_zero] at hk0
      rw [if_neg (by omega), if_neg hk0.1, if_neg (by rcases hk0.2 with h | h <;> simp [h])]
      have hrec := ih (i + 1) u (by simpa using ht) (by omega) (by omega)
        (by simpa using hsp) ?_
      · rw [hrec]; omega
      · intro k hk
        have := hcond (k + 1) (by omega)
        have e : i + (k + 1) = i + 1 + k := by omega
        rw [e] at this
        simpa using this

theorem cart_id_go_mismatch (cart : Nat → Char) (l : List Char) :
    ∀ i j : Nat, j < l.length → i + j < 6 →
      ¬(i + j ≠ 0 ∧ isspace (l.getD j ' ') = true) →
      l.getD j ' ' ≠ '_' → l.getD j ' ' ≠ cart (i + j) →
      (∀ k, k < j →
        ¬(i + k ≠ 0 ∧ isspace (l.getD k ' ') = true)
        ∧ (l.getD k ' ' = '_' ∨ l.getD k ' ' = cart (i + k))) →
      cart_id_go cart l i = 0 := by
  induction l with
  | nil => intro i j hj; simp at hj
  | cons c cs ih =>
    intro i j hj hlt hnospace hne1 hne2 hcond
    unfold cart_id_go
    cases j with
    | zero =>
      simp only [List.getD_cons_zero] at hnospace hne1 hne2
      simp only [Nat.add_zero] at hnospace hne2 hlt
      rw [if_neg (by omega), if_neg hnospace, if_pos ⟨hne1, hne2⟩]
    | succ u =>
      have hk0 := hcond 0 (by omega)
      simp only [List.getD_cons_zero, Nat.add_zero] at hk0
      rw [if_neg (by omega), if_neg hk0.1, if_neg (by rcases hk0.2 with h | h <;> simp [h])]
      refine ih (i + 1) u (by simpa using hj) (by omega) ?_ ?_ ?_ ?_
      · have e : i + 1 + u = i + (u + 1) := by omega
        rw [e]
        simpa using hnospace
      · simpa using hne1
      · have e : i + 1 + u = i + (u + 1) := by omega
        rw [e]
        simpa using hne2
      · intro k hk
        have := hcond (k + 1) (by omega)
        have e : i + (k + 1) = i + 1 + k := by omega
        rw [e] at this
        simpa using this

/-- Claim C5: for every "ID:"-keyed knowledge-base line and every
6-character cart code, `cart_id_is_match` returns 6 on a full
6-position match ('_' matching any character), returns the count i
(1..5) of confirmed positions when the pattern terminates via whitespace
after i positions, and returns 0 on any position mismatch — consistent
with a character-by-character comparison of the pattern against the
cart code. -/
theorem n64_C5 (pat : List Char) (cart : Nat → Char) :
    ((6 ≤ pat.length
      ∧ (∀ k, k < 6 →
          ¬(k ≠ 0 ∧ isspace (pat.getD k ' ') = true)
          ∧ (pat.getD k ' ' = '_' ∨ pat.getD k ' ' = cart k)))
      → cart_id_is_match ('I' :: 'D' :: ':' :: pat) cart = 6)
    ∧ (∀ t, 1 ≤ t → t ≤ 5 → t < pat.length → isspace (pat.getD t ' ') = true →
        (∀ k, k < t →
          ¬(k ≠ 0 ∧ isspace (pat.getD k ' ') = true)
          ∧ (pat.getD k ' ' = '_' ∨ pat.getD k ' ' = cart k)) →
        cart_id_is_match ('I' :: 'D' :: ':' :: pat) cart = t)
    ∧ (∀ j, j < 6 → j < pat.length →
        ¬(j ≠ 0 ∧ isspace (pat.getD j ' ') = true) →
        pat.getD j ' ' ≠ '_' → pat.getD j ' ' ≠ cart j →
        (∀ k, k < j →
          ¬(k ≠ 0 ∧ isspace (pat.getD k ' ') = true)
          ∧ (pat.getD k ' ' = '_' ∨ pat.getD k ' ' = cart k)) →
        cart_id_is_match ('I' :: 'D' :: ':' :: pat) cart = 0) := by
  have hpre : cart_id_is_match ('I' :: 'D' :: ':' :: pat) cart = cart_id_go cart pat 0 := by
    simp [cart_id_is_match]
  refine ⟨?_, ?_, ?_⟩
  · intro ⟨hlen, hcond⟩
    rw [hpre]
    refine cart_id_go_full cart pat 0 (by omega) ?_
    intro k hk hik
    simpa using hcond k (by omega)
  · intro t h1 h5 hlt hsp hcond
    rw [hpre]
    have := cart_id_go_ws cart pat 0 t hlt (by omega) (by omega) hsp
      (fun k hk => by simpa using hcond k hk)
    simpa using this
  · intro j h6 hlt hnospace hne1 hne2 hcond
    rw [hpre]
    exact cart_id_go_mismatch cart pat 0 j hlt (by omega) (by simpa using hnospace)
      hne1 (by simpa using hne2) (fun k hk => by simpa using hcond k hk)

/-- Witness for n64_C5: full match, whitespace termination after 2
positions, and mismatch at position 0, on the cart code NSME00. -/
theorem n64_C5_witness :
    cart_id_is_match ['I', 'D', ':', 'N', 'S', 'M', 'E', '0', '0']
      (fun i => ['N', 'S', 'M', 'E', '0', '0'].getD i '?') = 6
    ∧ cart_id_is_match ['I', 'D', ':', 'N', 'S', ' ', 'x']
        (fun i => ['N', 'S', 'M', 'E', '0', '0'].getD i '?') = 2
    ∧ cart_id_is_match ['I', 'D', ':', 'X', 'S', 'M', 'E', '0', '0']
        (fun i => ['N', 'S', 'M', 'E', '0', '0'].getD i '?') = 0 := by
  refine ⟨?_, ?_, ?_⟩
  · exact (n64_C5 ['N', 'S', 'M', 'E', '0', '0']
      (fun i => ['N', 'S', 'M', 'E', '0', '0'].getD i '?')).1 ⟨by decide, by decide⟩
  · exact (n64_C5 ['N', 'S', ' ', 'x']
      (fun i => ['N', 'S', 'M', 'E', '0', '0'].getD i '?')).2.1 2 (by decide) (by decide)
      (by decide) (by decide) (by decide)
  · exact (n64_C5 ['X', 'S', 'M', 'E', '0', '0']
      (fun i => ['N', 'S', 'M', 'E', '0', '0'].getD i '?')).2.2 0 (by decide) (by decide)
      (by decide) (by decide) (by decide) (by decide)

/-- Claim C9: when auto-detection is disabled, every detection path
(knowledge-base tag interpretation, the homebrew-header heuristic, and
the boot-chip signature heuristic) leaves the engine state — in
particular every host configuration option — exactly as it was. -/
theorem n64_C9 (st : EngineState) (tags : List (List Char))
    (ctrl : Nat × Nat × Nat × Nat) (cart_id : Nat → Char) (rc : Char)
    (sigs : Nat × Nat)
    (hoff : is_auto st.host = false) :
    (parse_and_apply_db_tags st tags).1 = st
    ∧ (detect_homebrew_header st ctrl cart_id).1 = st
    ∧ (detect_rom_settings_from_first_chunk st rc sigs).1 = st := by
  refine ⟨?_, ?_, ?_⟩
  · simp [parse_and_apply_db_tags, hoff]
  · by_cases hc : cart_id 1 = 'E' ∧ cart_id 2 = 'D' <;>
      simp [detect_homebrew_header, hc, hoff]
  · simp [detect_rom_settings_from_first_chunk, hoff]

/-- Witness for n64_C9 at a concrete auto-off state: each path runs (the
homebrew header matches, the tags contain recognized tokens) and the
state is untouched. -/
theorem n64_C9_witness :
    is_auto st_off.host = false
    ∧ (parse_and_apply_db_tags st_off (tokenize ['w', 'i', 'd', 'e'])).1 = st_off
    ∧ (detect_homebrew_header st_off (1, 2, 3, 0xff)
        (fun i => ['N', 'E', 'D', 'E', '3', '1'].getD i '?')).1 = st_off
    ∧ (detect_rom_settings_from_first_chunk st_off 'E' (0, 0)).1 = st_off := by
  have h := n64_C9 st_off (tokenize ['w', 'i', 'd', 'e']) (1, 2, 3, 0xff)
    (fun i => ['N', 'E', 'D', 'E', '3', '1'].getD i '?') 'E' (0, 0) (by decide)
  exact ⟨by decide, h.1, h.2.1, h.2.2⟩

theorem apply_wide_inv (w : Bool) (s : ArType × ArType) (h : wide_inv s) :
    wide_inv (apply_wide w s.1 s.2) := by
  rcases s with ⟨a, b⟩
  revert h
  cases w <;> cases a <;> cases b <;> decide

theorem run_wide_inv (ops : List Bool) : ∀ s : ArType × ArType, wide_inv s →
    wide_inv (run_wide ops s) := by
  induction ops with
  | nil => intro s h; exact h
  | cons w ws ih =>
    intro s h
    exact ih (apply_wide w s.1 s.2) (apply_wide_inv w s h)

/-- Claim C10: across any sequence of wide-on / wide-off applications
starting from an empty old_ar slot, the wide-display handling is an
idempotent 1-slot save/restore: a wide-on while the current ratio is not
FULL saves it and sets FULL, a second consecutive wide-on changes
nothing further, a wide-off with no pending saved ratio is a no-op, and
a wide-off with a pending saved ratio restores it and clears the slot. -/
theorem n64_C10 (a0 : ArType) (ops : List Bool) (s : ArType × ArType)
    (hs : s = run_wide ops (a0, ArType.UNKNOWN)) :
    (apply_wide true (apply_wide true s.1 s.2).1 (apply_wide true s.1 s.2).2
        = apply_wide true s.1 s.2)
    ∧ (s.1 ≠ ArType.FULL → apply_wide true s.1 s.2 = (ArType.FULL, s.1))
    ∧ (s.2 = ArType.UNKNOWN → apply_wide false s.1 s.2 = s)
    ∧ (s.2 ≠ ArType.UNKNOWN → apply_wide false s.1 s.2 = (s.2, ArType.UNKNOWN)) := by
  have hinv : wide_inv s := by
    rw [hs]
    exact run_wide_inv ops (a0, ArType.UNKNOWN) (by intro h; exact absurd rfl h)
  clear hs
  rcases s with ⟨a, b⟩
  revert hinv
  cases a <;> cases b <;> decide

/-- Witness for n64_C10: a pending slot created by one wide-on is
restored by wide-off; a no-op wide-off and a fresh wide-on at the
initial state. -/
theorem n64_C10_witness :
    apply_wide false ArType.FULL ArType.ORIGINAL = (ArType.ORIGINAL, ArType.UNKNOWN)
    ∧ apply_wide true ArType.ORIGINAL ArType.UNKNOWN = (ArType.FULL, ArType.ORIGINAL)
    ∧ apply_wide false ArType.ORIGINAL ArType.UNKNOWN
        = (ArType.ORIGINAL, ArType.UNKNOWN) := by
  have h1 := n64_C10 ArType.ORIGINAL [true] (ArType.FULL, ArType.ORIGINAL) (by decide)
  have h2 := n64_C10 ArType.ORIGINAL [] (ArType.ORIGINAL, ArType.UNKNOWN) (by decide)
  exact ⟨h1.2.2.2 (by decide), h2.2.1 (by decide), h2.2.2.1 (by decide)⟩

end N64
